import Mathlib

/-!
Verification development for the terminal fuzzy-picker application
(src/app.rs, src/backend.rs). Strings are modelled as lists of
characters; Rust usize arithmetic is modelled on Nat with explicit
wrap-around modulo 2 to the 64. The search, reconciliation and
key-event handling functions are shallow embeddings of App::search and
App::handle_key_event; the candidate source backend::get_projects is
embedded as the concrete list it returns, and the functions take the
fetched candidate list as an explicit parameter (allItems), standing
for the value returned by the call to backend::get_projects inside
each function.
-/

/-- Strings are modelled as lists of characters (Rust String, UTF-8;
character order agrees with byte order since UTF-8 preserves code-point
order). -/
abbrev Str := List Char

/-- Coerce a Lean string literal to the model type. -/
def str (s : String) : Str := s.data

/-- The number of values of usize (64-bit): 2 to the 64. -/
def USIZE : Nat := 18446744073709551616

/-- Rust usize saturating_add 1. -/
def satAdd1 (a : Nat) : Nat := min (a + 1) (USIZE - 1)

/-- Rust usize wrapping subtraction a - b (b at most USIZE); the release
build of the repository wraps here, the debug build panics, and the
model records the wrapped value. -/
def usizeSub (a b : Nat) : Nat := (a + USIZE - b) % USIZE

/-- Lexicographic comparison of characters by code point, as Rust
compares str byte-wise (UTF-8 byte order equals code-point order). -/
def compareChar (a b : Char) : Ordering := compare a.toNat b.toNat

/-- Lexicographic comparison of strings, embedding Ord for Rust String. -/
def compareStr : Str → Str → Ordering
  | [], [] => Ordering.eq
  | [], _ :: _ => Ordering.lt
  | _ :: _, [] => Ordering.gt
  | a :: as, b :: bs =>
    match compareChar a b with
    | Ordering.eq => compareStr as bs
    | o => o

/-- Does hay start with needle? Helper for substring containment,
mirroring the prefix step of Rust str contains. -/
def strStartsWith (hay needle : Str) : Bool :=
  match needle, hay with
  | [], _ => true
  | _ :: _, [] => false
  | b :: bs, a :: as => a == b && strStartsWith as bs

/-- Rust str contains: needle occurs in hay as a contiguous substring
(case-sensitive, no normalization). -/
def strContains : Str → Str → Bool
  | [], needle => strStartsWith [] needle
  | a :: tl, needle => strStartsWith (a :: tl) needle || strContains tl needle

/-- The filter step of App::search (src/app.rs lines 64-68):
all_items.iter().filter(|i| i.contains(search_text)). -/
def filterItems (query : Str) (candidates : List Str) : List Str :=
  candidates.filter (fun i => strContains i query)

/-- The loop of Rust core slice binary_search_by (the branchless
implementation used by the standard library): base and size evolve
until size is 1; fuel bounds the iteration count (the callers pass
fuel equal to the initial size, which the loop never exhausts since
size strictly decreases each step). Returns the final base. -/
def bsLoop (xs : List Str) (target : Str) : Nat → Nat → Nat → Nat
  | 0, base, _ => base
  | fuel + 1, base, size =>
    if 1 < size then
      let half := size / 2
      let mid := base + half
      let cmp := compareStr (xs.getD mid []) target
      bsLoop xs target fuel (if cmp = Ordering.gt then base else mid) (size - half)
    else base

/-- Rust slice binary_search for String slices: Sum.inl i models Ok(i)
(element at i equals target), Sum.inr i models Err(i) (insertion
point). App::search calls this on the new filtered list, which is not
sorted. -/
def binary_search (xs : List Str) (target : Str) : Nat ⊕ Nat :=
  if xs.length = 0 then Sum.inr 0
  else
    let base := bsLoop xs target xs.length 0 xs.length
    let cmp := compareStr (xs.getD base []) target
    if cmp = Ordering.eq then Sum.inl base
    else Sum.inr (base + if cmp = Ordering.lt then 1 else 0)

/-- backend::get_projects (src/backend.rs): the static candidate list. -/
def get_projects : List Str :=
  [str "some_very_long_project_name",
   str "some_other_long_project_name",
   str "project_001",
   str "project_002",
   str "man_vs_bee",
   str "pipeline_testing_2022_2",
   str "asset_library_2024",
   str "asset_library_2023",
   str "rt_sandbox_2024",
   str "rnd_sandbox_2024"]

/-- The key codes distinguished by App::handle_key_event
(src/app.rs lines 107-145); other covers every key code that falls
into the final wildcard arm. -/
inductive KeyCode where
  | char (c : Char)
  | backspace
  | tab
  | backTab
  | down
  | up
  | enter
  | other
deriving DecidableEq

/-- The App state (src/app.rs lines 23-31): search_text is the query,
search_items the current filtered list, highlighted_item_index the
highlight, should_exit the exit flag. -/
structure App where
  search_text : Str
  current_project : Option Str
  current_sequence : Option Str
  should_exit : Bool
  search_items : List Str
  highlighted_item_index : Nat
deriving DecidableEq

/-- App::new (src/app.rs lines 34-45). -/
def App.new : App :=
  { search_text := []
    current_project := none
    current_sequence := none
    should_exit := false
    search_items := get_projects
    highlighted_item_index := 0 }

/-- App::search (src/app.rs lines 47-80): find the currently
highlighted item by its index in the old search_items, recompute the
filtered list from the freshly fetched candidates (allItems stands for
the result of the call to backend::get_projects), and reconcile the
highlight by binary_search on the new list (Ok s sets the index to s,
Err sets it to 0). Returns the updated App and the new items, which the
caller assigns to search_items. -/
def App.search (allItems : List Str) (a : App) : App × List Str :=
  match (a.search_items.enum.find? (fun p => p.1 == a.highlighted_item_index)).map (fun p => p.2) with
  | some item =>
    let new_highlighted_index :=
      match binary_search (filterItems a.search_text allItems) item with
      | Sum.inl s => s
      | Sum.inr _ => 0
    ({ a with highlighted_item_index := new_highlighted_index },
     filterItems a.search_text allItems)
  | none => (a, filterItems a.search_text allItems)

/-- App::handle_key_event (src/app.rs lines 107-145); allItems stands
for the value returned by backend::get_projects to the inner calls. -/
def App.handle_key_event (allItems : List Str) (a : App) (code : KeyCode) : App :=
  match code with
  | KeyCode.char c =>
    if c = 'Q' then { a with should_exit := true }
    else
      let a1 := { a with search_text := a.search_text ++ [c] }
      let s := App.search allItems a1
      { s.1 with search_items := s.2 }
  | KeyCode.backspace =>
    let a1 := { a with search_text := a.search_text.dropLast }
    if a1.search_text.isEmpty then { a1 with search_items := allItems }
    else
      let s := App.search allItems a1
      { s.1 with search_items := s.2 }
  | KeyCode.tab =>
    let next_index := min (satAdd1 a.highlighted_item_index) (usizeSub a.search_items.length 1)
    { a with highlighted_item_index := next_index }
  | KeyCode.down =>
    let next_index := min (satAdd1 a.highlighted_item_index) (usizeSub a.search_items.length 1)
    { a with highlighted_item_index := next_index }
  | KeyCode.backTab =>
    { a with highlighted_item_index := max (a.highlighted_item_index - 1) 0 }
  | KeyCode.up =>
    { a with highlighted_item_index := max (a.highlighted_item_index - 1) 0 }
  | KeyCode.enter => a
  | KeyCode.other => a

/-- App::run (src/app.rs lines 82-92): process key events until
should_exit holds, then return search_text; none models the loop
blocking forever on an exhausted event stream. -/
def App.runLoop (allItems : List Str) : App → List KeyCode → Option Str
  | a, [] => if a.should_exit then some a.search_text else none
  | a, e :: rest =>
    if a.should_exit then some a.search_text
    else App.runLoop allItems (a.handle_key_event allItems e) rest

/-- Concrete reachable state: the app after startup with the highlight
moved to index 3 (the string project_002 in get_projects), query still
empty; reached from App.new by pressing tab three times. -/
def app10at3 : App :=
  { search_text := []
    current_project := none
    current_sequence := none
    should_exit := false
    search_items := get_projects
    highlighted_item_index := 3 }

/-- Concrete reachable state: query xy, which matches no candidate, so
the filtered list is empty; reached from App.new by pressing x then y. -/
def appXY : App :=
  { search_text := str "xy"
    current_project := none
    current_sequence := none
    should_exit := false
    search_items := []
    highlighted_item_index := 0 }

/-- Concrete reachable state: query xyz with no matches, empty filtered
list. -/
def appXYZ : App :=
  { search_text := str "xyz"
    current_project := none
    current_sequence := none
    should_exit := false
    search_items := []
    highlighted_item_index := 0 }

/-- Concrete reachable state: query 0, filtered list the seven
candidates containing the character 0, highlight at index 1; reached
from App.new by pressing 0 then tab. -/
def app0 : App :=
  { search_text := str "0"
    current_project := none
    current_sequence := none
    should_exit := false
    search_items := filterItems (str "0") get_projects
    highlighted_item_index := 1 }

/-- The candidate list of Scenario B of the spec. -/
def candidatesB : List Str :=
  [str "project_001", str "project_002", str "man_vs_bee"]

/-- The state of Scenario B right before the character 0 is pressed:
query p, filtered list the two project entries, highlight at index 1. -/
def appB : App :=
  { search_text := str "p"
    current_project := none
    current_sequence := none
    should_exit := false
    search_items := [str "project_001", str "project_002"]
    highlighted_item_index := 1 }

/-! Helper lemmas about the string and search functions. -/

theorem strStartsWith_iff (needle hay : Str) :
    strStartsWith hay needle = true ↔ ∃ r, hay = needle ++ r := by
  induction needle generalizing hay with
  | nil =>
    constructor
    · intro _
      exact ⟨hay, rfl⟩
    · intro _
      cases hay <;> rfl
  | cons b bs ih =>
    cases hay with
    | nil =>
      simp [strStartsWith]
    | cons a as =>
      rw [strStartsWith]
      simp only [Bool.and_eq_true, beq_iff_eq, ih, List.cons_append, List.cons.injEq]
      constructor
      · rintro ⟨h1, r, h2⟩
        exact ⟨r, h1, h2⟩
      · rintro ⟨r, h1, h2⟩
        exact ⟨h1, r, h2⟩

theorem strContains_iff (hay needle : Str) :
    strContains hay needle = true ↔ ∃ l r, hay = l ++ needle ++ r := by
  induction hay with
  | nil =>
    rw [strContains, strStartsWith_iff]
    constructor
    · rintro ⟨r, h⟩
      exact ⟨[], r, h⟩
    · rintro ⟨l, r, h⟩
      rcases List.append_eq_nil.mp (List.append_eq_nil.mp h.symm).1 with ⟨h1, h2⟩
      exact ⟨[], by simp [h1, h2]⟩
  | cons a tl ih =>
    rw [strContains, Bool.or_eq_true, strStartsWith_iff, ih]
    constructor
    · rintro (⟨r, h⟩ | ⟨l, r, h⟩)
      · exact ⟨[], r, by simpa using h⟩
      · exact ⟨a :: l, r, by simp [h]⟩
    · rintro ⟨l, r, h⟩
      cases l with
      | nil =>
        exact Or.inl ⟨r, by simpa using h⟩
      | cons x xs =>
        rw [List.cons_append, List.cons_append, List.cons.injEq] at h
        exact Or.inr ⟨xs, r, h.2⟩

theorem search_preserves_text_exit (allItems : List Str) (a : App) :
    ((App.search allItems a).1).search_text = a.search_text
    ∧ ((App.search allItems a).1).should_exit = a.should_exit := by
  unfold App.search
  cases (a.search_items.enum.find? (fun p => p.1 == a.highlighted_item_index)).map (fun p => p.2) <;>
    simp

/-! Claim theorems. -/

/-- C4: for every query q and candidate list C, every item of
filterItems q C contains q as a contiguous, case-sensitive substring
(it decomposes as l ++ q ++ r), and filterItems q C is a subsequence
of C preserving the relative order of the surviving items. -/
theorem filter_items_contain_query_and_sublist (q : Str) (C : List Str) :
    (∀ x, x ∈ filterItems q C → ∃ l r, x = l ++ q ++ r)
    ∧ List.Sublist (filterItems q C) C := by
  constructor
  · intro x hx
    exact (strContains_iff x q).mp (List.mem_filter.mp hx).2
  · exact List.filter_sublist C

/-- Witness for C4 at the query p and the repository candidate list. -/
theorem filter_items_contain_query_and_sublist_witness :
    ((str "project_001") ∈ filterItems (str "p") get_projects)
    ∧ (∃ l r, str "project_001" = l ++ str "p" ++ r)
    ∧ List.Sublist (filterItems (str "p") get_projects) get_projects :=
  ⟨by decide,
   (filter_items_contain_query_and_sublist (str "p") get_projects).1 (str "project_001") (by decide),
   (filter_items_contain_query_and_sublist (str "p") get_projects).2⟩

/-- C9: filtering with the empty query returns the full candidate list
unchanged, in its original order. -/
theorem filter_empty_query_eq_self (C : List Str) : filterItems (str "") C = C := by
  show filterItems [] C = C
  unfold filterItems
  rw [List.filter_eq_self]
  intro a _
  cases a <;> rfl

/-- C1: evaluation of the code at a failing input. In the reachable
state app10at3 (full list, highlight at index 3, the string
project_002) pressing the character 0 recomputes the filtered list;
project_002 still appears in it, at position 1, yet reconciliation
sets the highlight to 0 (pointing at project_001), because
App::search looks the string up with binary_search on a list that is
not sorted and misses it. The claim requires the new index to be 1. -/
theorem reconciliation_binary_search_miss :
    app10at3.search_items.getD 3 [] = str "project_002"
    ∧ (app10at3.handle_key_event get_projects (KeyCode.char '0')).search_items[1]?
        = some (str "project_002")
    ∧ ((str "project_002") ∈ (app10at3.handle_key_event get_projects (KeyCode.char '0')).search_items)
    ∧ (app10at3.handle_key_event get_projects (KeyCode.char '0')).highlighted_item_index = 0
    ∧ (app10at3.handle_key_event get_projects (KeyCode.char '0')).search_items[0]?
        = some (str "project_001") := by decide

/-- C2: evaluation of the code at a failing input. The state appXY
(query xy, empty filtered list) is reached from App.new by pressing x
then y; pressing down there computes search_items.len() - 1 = 0 - 1
on usize (a panic in debug builds, wrap-around in release builds), and
the highlight becomes 1 instead of staying 0. -/
theorem next_on_empty_list_overflows :
    ((App.new.handle_key_event get_projects (KeyCode.char 'x')).handle_key_event
        get_projects (KeyCode.char 'y')) = appXY
    ∧ appXY.search_items = []
    ∧ appXY.highlighted_item_index = 0
    ∧ (appXY.handle_key_event get_projects KeyCode.down).highlighted_item_index = 1 := by decide

/-- C5: evaluation of the code at a failing input. In the state appXYZ
(query xyz, empty filtered list, highlight 0) pressing tab leaves the
filtered list empty but sets the highlight to 1, breaking the claimed
invariant that the highlight is 0 whenever the filtered list is
empty. -/
theorem tab_on_empty_breaks_highlight_invariant :
    appXYZ.search_items = []
    ∧ (appXYZ.handle_key_event get_projects KeyCode.tab).search_items = []
    ∧ (appXYZ.handle_key_event get_projects KeyCode.tab).highlighted_item_index = 1 := by decide

/-- C3 counterexample: in the reachable state app0 (query 0, highlight
at index 1) pressing backspace empties the query and resets the
filtered list to the full snapshot, but the highlight stays 1 instead
of the claimed reset to 0. -/
theorem backspace_empty_keeps_highlight_cex :
    (app0.handle_key_event get_projects KeyCode.backspace).search_text = []
    ∧ (app0.handle_key_event get_projects KeyCode.backspace).search_items = get_projects
    ∧ app0.highlighted_item_index = 1
    ∧ (app0.handle_key_event get_projects KeyCode.backspace).highlighted_item_index = 1
    ∧ ¬ ((app0.handle_key_event get_projects KeyCode.backspace).highlighted_item_index = 0) := by
  decide

/-- C3 as amended: for every state, when a backspace key event makes
the query empty, the filtered list is reset to the full candidate
snapshot (bypassing the filter engine) and the highlight index keeps
its prior value (it is not reset). -/
theorem backspace_empty_resets_list_keeps_highlight (allItems : List Str) (a : App)
    (h : a.search_text.dropLast = []) :
    (a.handle_key_event allItems KeyCode.backspace).search_text = []
    ∧ (a.handle_key_event allItems KeyCode.backspace).search_items = allItems
    ∧ (a.handle_key_event allItems KeyCode.backspace).highlighted_item_index
        = a.highlighted_item_index := by
  unfold App.handle_key_event
  simp [h]

/-- Witness for the amended C3 at the concrete state app0. -/
theorem backspace_empty_resets_list_keeps_highlight_witness :
    (app0.search_text.dropLast = [])
    ∧ ((app0.handle_key_event get_projects KeyCode.backspace).search_text = []
      ∧ (app0.handle_key_event get_projects KeyCode.backspace).search_items = get_projects
      ∧ (app0.handle_key_event get_projects KeyCode.backspace).highlighted_item_index
          = app0.highlighted_item_index) :=
  ⟨by decide, backspace_empty_resets_list_keeps_highlight get_projects app0 (by decide)⟩

/-- C7 counterexample: in the Scenario B state (candidates as in the
spec, query p, highlight 1) pressing 0 makes the query p0, which no
candidate contains as a contiguous substring, so the filtered list
becomes empty and the highlight falls back to 0 - not the claimed
list of two projects with highlight 1. -/
theorem scenario_b_cex :
    (appB.handle_key_event candidatesB (KeyCode.char '0')).search_text = str "p0"
    ∧ (appB.handle_key_event candidatesB (KeyCode.char '0')).search_items = []
    ∧ (appB.handle_key_event candidatesB (KeyCode.char '0')).highlighted_item_index = 0
    ∧ ¬ ((appB.handle_key_event candidatesB (KeyCode.char '0')).search_items
            = [str "project_001", str "project_002"]
        ∧ (appB.handle_key_event candidatesB (KeyCode.char '0')).highlighted_item_index = 1) := by
  decide

/-- C7 as amended: in the Scenario B state, pressing 0 (query becomes
p0) yields an empty filtered list and highlight 0, since no candidate
contains p0 as a contiguous substring. -/
theorem scenario_b_amended :
    (appB.handle_key_event candidatesB (KeyCode.char '0')).search_text = str "p0"
    ∧ filterItems (str "p0") candidatesB = []
    ∧ (appB.handle_key_event candidatesB (KeyCode.char '0')).search_items = []
    ∧ (appB.handle_key_event candidatesB (KeyCode.char '0')).highlighted_item_index = 0 := by
  decide

/-- C6: for every non-exited state, processing the quit key (the
character Q) leaves the query unchanged, sets the exit flag (the
Exited state), and the interaction loop then returns exactly the query
value at the moment of quitting, whatever events follow. -/
theorem quit_preserves_query_and_returns_it (allItems : List Str) (a : App)
    (rest : List KeyCode) (h : a.should_exit = false) :
    (a.handle_key_event allItems (KeyCode.char 'Q')).search_text = a.search_text
    ∧ (a.handle_key_event allItems (KeyCode.char 'Q')).should_exit = true
    ∧ App.runLoop allItems a (KeyCode.char 'Q' :: rest) = some a.search_text := by
  have hq : a.handle_key_event allItems (KeyCode.char 'Q') = { a with should_exit := true } := by
    simp [App.handle_key_event]
  refine ⟨by rw [hq], by rw [hq], ?_⟩
  have hstep : App.runLoop allItems a (KeyCode.char 'Q' :: rest)
      = App.runLoop allItems { a with should_exit := true } rest := by
    rw [App.runLoop, h, hq]
    simp
  rw [hstep]
  cases rest <;> simp [App.runLoop]

/-- Witness for C6 at the startup state with an empty tail of events. -/
theorem quit_preserves_query_and_returns_it_witness :
    (App.new.handle_key_event get_projects (KeyCode.char 'Q')).search_text = App.new.search_text
    ∧ (App.new.handle_key_event get_projects (KeyCode.char 'Q')).should_exit = true
    ∧ App.runLoop get_projects App.new [KeyCode.char 'Q'] = some App.new.search_text :=
  quit_preserves_query_and_returns_it get_projects App.new [] rfl

/-- C8: for every state whose filtered list is non-empty (of length at
most the usize range) and whose highlight is in bounds, the next key
(tab or down) moves the highlight to min(index + 1, length - 1), never
past length - 1, and the previous key (shift-tab or up) moves it to
max(index - 1, 0), never below 0 (saturating, no wrap-around). -/
theorem move_highlight_saturates (allItems : List Str) (a : App)
    (h1 : 1 ≤ a.search_items.length)
    (h2 : a.highlighted_item_index < a.search_items.length)
    (h3 : a.search_items.length < USIZE) :
    ((a.handle_key_event allItems KeyCode.tab).highlighted_item_index
        = min (a.highlighted_item_index + 1) (a.search_items.length - 1)
      ∧ (a.handle_key_event allItems KeyCode.tab).highlighted_item_index
        ≤ a.search_items.length - 1)
    ∧ ((a.handle_key_event allItems KeyCode.down).highlighted_item_index
        = min (a.highlighted_item_index + 1) (a.search_items.length - 1))
    ∧ ((a.handle_key_event allItems KeyCode.backTab).highlighted_item_index
        = max (a.highlighted_item_index - 1) 0)
    ∧ ((a.handle_key_event allItems KeyCode.up).highlighted_item_index
        = max (a.highlighted_item_index - 1) 0) := by
  have h3' : a.search_items.length < 18446744073709551616 := h3
  have hs : satAdd1 a.highlighted_item_index = a.highlighted_item_index + 1 := by
    unfold satAdd1 USIZE
    omega
  have hu : usizeSub a.search_items.length 1 = a.search_items.length - 1 := by
    unfold usizeSub USIZE
    omega
  refine ⟨⟨?_, ?_⟩, ?_, ?_, ?_⟩ <;> simp [App.handle_key_event, hs, hu]

/-- Witness for C8 at the startup state (ten candidates, highlight 0). -/
theorem move_highlight_saturates_witness :
    (1 ≤ App.new.search_items.length)
    ∧ (App.new.highlighted_item_index < App.new.search_items.length)
    ∧ (App.new.search_items.length < USIZE)
    ∧ (((App.new.handle_key_event get_projects KeyCode.tab).highlighted_item_index
          = min (App.new.highlighted_item_index + 1) (App.new.search_items.length - 1)
        ∧ (App.new.handle_key_event get_projects KeyCode.tab).highlighted_item_index
          ≤ App.new.search_items.length - 1)
      ∧ ((App.new.handle_key_event get_projects KeyCode.down).highlighted_item_index
          = min (App.new.highlighted_item_index + 1) (App.new.search_items.length - 1))
      ∧ ((App.new.handle_key_event get_projects KeyCode.backTab).highlighted_item_index
          = max (App.new.highlighted_item_index - 1) 0)
      ∧ ((App.new.handle_key_event get_projects KeyCode.up).highlighted_item_index
          = max (App.new.highlighted_item_index - 1) 0)) :=
  ⟨by decide, by decide, by decide,
   move_highlight_saturates get_projects App.new (by decide) (by decide) (by decide)⟩

/-- C10: the dedicated quit key is exactly the capital character Q.
For every non-exited state, a character key event with any character
other than Q (in particular lowercase q) appends that character to the
query and leaves the exit flag false; the character Q sets the exit
flag without modifying the query. -/
theorem quit_key_is_capital_Q (allItems : List Str) (a : App) (c : Char)
    (hc : c ≠ 'Q') (hex : a.should_exit = false) :
    ((a.handle_key_event allItems (KeyCode.char c)).search_text = a.search_text ++ [c]
      ∧ (a.handle_key_event allItems (KeyCode.char c)).should_exit = false)
    ∧ ((a.handle_key_event allItems (KeyCode.char 'Q')).search_text = a.search_text
      ∧ (a.handle_key_event allItems (KeyCode.char 'Q')).should_exit = true) := by
  have hpres := search_preserves_text_exit allItems { a with search_text := a.search_text ++ [c] }
  refine ⟨⟨?_, ?_⟩, ?_, ?_⟩
  · simp only [App.handle_key_event, if_neg hc]
    simpa using hpres.1
  · simp only [App.handle_key_event, if_neg hc]
    rw [← hex]
    simpa using hpres.2
  · simp [App.handle_key_event]
  · simp [App.handle_key_event]

/-- Witness for C10: lowercase q (the key the repository unit test
presses) does not quit, it is appended to the query. -/
theorem quit_key_is_capital_Q_witness :
    (((App.new.handle_key_event get_projects (KeyCode.char 'q')).search_text
          = App.new.search_text ++ ['q']
      ∧ (App.new.handle_key_event get_projects (KeyCode.char 'q')).should_exit = false)
    ∧ ((App.new.handle_key_event get_projects (KeyCode.char 'Q')).search_text = App.new.search_text
      ∧ (App.new.handle_key_event get_projects (KeyCode.char 'Q')).should_exit = true)) :=
  quit_key_is_capital_Q get_projects App.new 'q' (by decide) rfl
